import Mathlib

/-!
Verification of the simulation core of the lighthouse-keeper repository.
The exact-arithmetic parts of the code (spotlight plane projection,
cycle manager, rock placement and rock/ship collision detection) are
embedded over the rationals; the ship-steering code, which calls the
transcendental functions Math.acos, Math.sin and Math.cos, is embedded
over the reals. Definitions come first, then the theorems.
-/

namespace LighthouseKeeper

/-- Exact 3D vector, used for the exact-arithmetic modules
(lighthouseBeam.js, rocks.js). THREE.Vector3 components are treated as
exact numbers. -/
structure Vec3 where
  x : ℚ
  y : ℚ
  z : ℚ
  deriving DecidableEq, Repr

/-- Vector3.addScaledVector: o + d * t componentwise. -/
def addScaled (o d : Vec3) (t : ℚ) : Vec3 :=
  ⟨o.x + d.x * t, o.y + d.y * t, o.z + d.z * t⟩

/-! ### Spotlight projector, lighthouseBeam.js getSpotCenterOnPlane -/

/-- The epsilon band of the nearly-horizontal-beam test in
getSpotCenterOnPlane (the literal 1e-4 in the source). -/
def epsBeam : ℚ := 1 / 10000

/-- lighthouseBeam.js getSpotCenterOnPlane: intersection of the beam
centerline ray (origin, dir) with the horizontal plane at height planeY,
rejected when the beam is nearly horizontal, when the intersection is
behind the lamp, or when it is beyond beamLength. The world origin and
direction, read off the beam group transform in the source, are inputs
here. -/
def getSpotCenterOnPlane (origin dir : Vec3) (planeY beamLength : ℚ) : Option Vec3 :=
  let dy := dir.y
  if |dy| < epsBeam then none
  else
    let t := (planeY - origin.y) / dy
    if t ≤ 0 then none
    else if t > beamLength then none
    else some (addScaled origin dir t)

/-! ### Cycle manager, cycleManager.js -/

/-- The mutable state of createCycleManager: the last observed cycle
index, initialized to the sentinel -1. -/
structure CycleState where
  lastCycleIndex : ℤ
  deriving DecidableEq, Repr

/-- createCycleManager initial state (let lastCycleIndex = -1). -/
def initCycleState : CycleState := ⟨-1⟩

/-- JavaScript truncation toward zero (used by the % operator). -/
def jsTrunc (q : ℚ) : ℤ :=
  if 0 ≤ q then ⌊q⌋ else ⌈q⌉

/-- The JavaScript remainder a % b (truncated division remainder). -/
def jsMod (a b : ℚ) : ℚ := a - b * jsTrunc (a / b)

/-- cycleManager.js progress: (time % cycleDuration) / cycleDuration. -/
def cycleProgress (period time : ℚ) : ℚ := jsMod time period / period

/-- cycleManager.js update: compute the cycle index with Math.floor;
fire the onCycleStart callback when it differs from the stored index and
store it; always return the progress. The Bool records whether the
callback fired. -/
def cycleUpdate (period time : ℚ) (st : CycleState) : ℚ × Bool × CycleState :=
  let idx : ℤ := ⌊time / period⌋
  if idx ≠ st.lastCycleIndex then
    (cycleProgress period time, true, ⟨idx⟩)
  else
    (cycleProgress period time, false, st)

/-! ### Theorems for claims C1 and C2 -/

/-! ### Rock field, rocks.js -/

/-- A placed rock collider (rocks.js addRockAt): a static world-space
sphere. The visual mesh is omitted. -/
structure Rock where
  cx : ℚ
  cy : ℚ
  cz : ℚ
  cradius : ℚ
  deriving DecidableEq, Repr

/-- Squared XZ distance from the point (x, z) to the center of rock r,
written with the square as a product exactly as the source does. -/
def distXZsq (x z : ℚ) (r : Rock) : ℚ :=
  (x - r.cx) * (x - r.cx) + (z - r.cz) * (z - r.cz)

/-- rocks.js isFarEnough: a candidate point (x, z) passes when no
already placed rock r has squared XZ distance below
(minSpacing + r.collider.radius)^2. Only the placed rock radius enters
the bound; the candidate radius does not. -/
def isFarEnough (minSpacing : ℚ) (rocks : List Rock) (x z : ℚ) : Bool :=
  rocks.all fun r =>
    !(decide (distXZsq x z r < (minSpacing + r.cradius) * (minSpacing + r.cradius)))

/-- rocks.js addRockAt: the stored collider sits at height
oceanY + radius * 0.25 and its radius is shrunk to radius * 0.9. -/
def addRockAt (oceanY : ℚ) (rocks : List Rock) (x z radius : ℚ) : List Rock :=
  rocks ++ [⟨x, oceanY + radius * (1 / 4), z, radius * (9 / 10)⟩]

/-- One sampled candidate of the rejection-sampling loop: the three
randRange draws of one iteration of the while loop. -/
structure Candidate where
  x : ℚ
  z : ℚ
  radius : ℚ
  deriving DecidableEq, Repr

/-- The while loop of createRockSystem, consuming one candidate per
try and stopping once count rocks are placed. -/
def placeLoop (count : ℕ) (minSpacing oceanY : ℚ) :
    List Candidate → List Rock → List Rock
  | [], rocks => rocks
  | c :: cs, rocks =>
      if rocks.length < count then
        if isFarEnough minSpacing rocks c.x c.z then
          placeLoop count minSpacing oceanY cs (addRockAt oceanY rocks c.x c.z c.radius)
        else
          placeLoop count minSpacing oceanY cs rocks
      else rocks

/-- createRockSystem placement: the try budget is count * 50, modelled
by truncating the candidate stream. -/
def placeRocks (count : ℕ) (minSpacing oceanY : ℚ) (cands : List Candidate) : List Rock :=
  placeLoop count minSpacing oceanY (cands.take (count * 50)) []

/-- The spacing relation between an earlier rock a and a later rock b:
the squared XZ distance is at least (minSpacing + a.cradius)^2. Only the
earlier rock contributes its radius (the asymmetric rule). -/
def rockSpacingOk (minSpacing : ℚ) (a b : Rock) : Prop :=
  (minSpacing + a.cradius) * (minSpacing + a.cradius) ≤ distXZsq b.cx b.cz a

/-! ### Ship versus rock collisions, rocks.js checkShipCollisions -/

/-- The view checkShipCollisions takes of a ship: the bounding sphere
computed by getShipApproxSphere plus the flags the check reads and
writes. -/
structure ShipView where
  cx : ℚ
  cy : ℚ
  cz : ℚ
  radius : ℚ
  crashed : Bool
  active : Bool
  visible : Bool
  deriving DecidableEq, Repr

/-- The sphere versus sphere test of the inner rock loop: squared
distance against squared radius sum, touching counts. -/
def sphereOverlap (s : ShipView) (r : Rock) : Bool :=
  decide ((s.cx - r.cx) * (s.cx - r.cx) + (s.cy - r.cy) * (s.cy - r.cy) +
    (s.cz - r.cz) * (s.cz - r.cz) ≤ (s.radius + r.cradius) * (s.radius + r.cradius))

/-- The skip test of checkShipCollisions: crashed, explicitly
deactivated, or hidden ships are not tested. -/
def shipSkipped (s : ShipView) : Bool := s.crashed || !s.active || !s.visible

/-- Index of the first rock, from index ri on, whose sphere meets the
ship sphere. -/
def firstRockHitFrom (s : ShipView) : ℕ → List Rock → Option ℕ
  | _, [] => none
  | ri, r :: rs => if sphereOverlap s r then some ri else firstRockHitFrom s (ri + 1) rs

/-- Index of the first rock in insertion order that the ship hits. -/
def firstRockHit (s : ShipView) (rocks : List Rock) : Option ℕ :=
  firstRockHitFrom s 0 rocks

/-- The mutation applied to a ship on its first hit, with markCrashed
and hideOnCrash left at their default true. -/
def crashShip (s : ShipView) : ShipView := { s with crashed := true, visible := false }

/-- The per-ship body of checkShipCollisions: skipped ships are not
tested; otherwise the first overlapping rock, if any, produces the
event and crashes and hides the ship, and the rock loop stops. -/
def collideShip (rocks : List Rock) (s : ShipView) : Option ℕ × ShipView :=
  if shipSkipped s then (none, s)
  else
    match firstRockHit s rocks with
    | some ri => (some ri, crashShip s)
    | none => (none, s)

/-- The outer ship loop of checkShipCollisions, carrying the ship
index. -/
def checkLoop (rocks : List Rock) : ℕ → List ShipView → List (ℕ × ℕ) × List ShipView
  | _, [] => ([], [])
  | si, s :: rest =>
      let hs := collideShip rocks s
      let tail := checkLoop rocks (si + 1) rest
      ((match hs.1 with | some ri => [(si, ri)] | none => []) ++ tail.1, hs.2 :: tail.2)

/-- rocks.js checkShipCollisions: the returned hit list and the ship
list after the in-place flag mutations. -/
def checkShipCollisions (rocks : List Rock) (ships : List ShipView) :
    List (ℕ × ℕ) × List ShipView :=
  checkLoop rocks 0 ships

/-! ### The render loop driver, main module animate -/

/-- State of the render loop driver: the frame number the next animate
invocation will process, the console error log, and whether another
animate invocation is scheduled through requestAnimationFrame. -/
structure LoopState where
  frame : ℕ
  log : List String
  scheduled : Bool
  deriving DecidableEq, Repr

/-- The loop starts with the direct animate() call at module load. -/
def initLoopState : LoopState := ⟨0, [], true⟩

/-- One animate invocation of the main module. The whole per-frame tick
body, the render call included, runs inside the try block and
requestAnimationFrame(animate) is the last statement of that same try
block; the catch block only writes to the console. The tick body is
modelled as a function from the frame number to Except, an exception
being the thrown value; when no invocation is scheduled, nothing
runs. -/
def animateStep (body : ℕ → Except String Unit) (st : LoopState) : LoopState :=
  if st.scheduled then
    match body st.frame with
    | Except.ok _ => ⟨st.frame + 1, st.log, true⟩
    | Except.error e => ⟨st.frame, st.log ++ ["Animation loop crashed: " ++ e], false⟩
  else st

/-! ### Ship fleet, ships.js

The steering code calls Math.acos, Math.sin and Math.cos, so this
module is embedded over the reals. -/

open scoped Classical in
/-- Real-valued 3D vector for the ship module. -/
structure Vec3R where
  x : ℝ
  y : ℝ
  z : ℝ

/-- Vector3.length. -/
noncomputable def norm3 (v : Vec3R) : ℝ := Real.sqrt (v.x * v.x + v.y * v.y + v.z * v.z)

/-- Vector3.normalize: divideScalar(length() or 1 when the length is
0), so the zero vector stays zero. -/
noncomputable def normalize3 (v : Vec3R) : Vec3R :=
  let l := if norm3 v = 0 then 1 else norm3 v
  ⟨v.x / l, v.y / l, v.z / l⟩

/-- Vector3.dot. -/
def dot3 (a b : Vec3R) : ℝ := a.x * b.x + a.y * b.y + a.z * b.z

/-- Vector3.applyAxisAngle with the unit axis (0, 1, 0): the
right-handed rotation about the world Y axis by the given angle. -/
noncomputable def rotY (t : ℝ) (v : Vec3R) : Vec3R :=
  ⟨v.x * Real.cos t + v.z * Real.sin t, v.y, -v.x * Real.sin t + v.z * Real.cos t⟩

/-- One ship of ships.js: the mesh position and visibility, the
steering state and the constants drawn at spawn. The crashed flag is
never written by ships.js itself; the rock system sets it. -/
structure Ship where
  pos : Vec3R
  dir : Vec3R
  speed : ℝ
  turnRate : ℝ
  radius : ℝ
  bobPhase : ℝ
  active : Bool
  crashed : Bool
  visible : Bool

/-- The configuration object of createShipSystem. shipColliderRadius is
the bounding-sphere radius that spawnShip computes once from the fixed
ship mesh; the mesh being rendering geometry, the constant is a
parameter here. -/
structure FleetCfg where
  shipCount : ℕ
  shipSpawnZ : ℝ
  shipArriveZ : ℝ
  shipSpawnXMin : ℝ
  shipSpawnXMax : ℝ
  shipY : ℝ
  shipSpeedMin : ℝ
  shipSpeedMax : ℝ
  shipSpawnInterval : ℝ
  shipTurnRate : ℝ
  spotRange : ℝ
  shipColliderRadius : ℝ

/-- The mutable state of createShipSystem: the ship array, the spawn
counter and the spawn timer. -/
structure FleetState where
  ships : List Ship
  shipsSpawned : ℕ
  spawnTimer : ℝ

/-- The state at creation time: no ships, counter 0, timer primed at
the spawn interval. -/
def fleetInit (cfg : FleetCfg) : FleetState := ⟨[], 0, cfg.shipSpawnInterval⟩

/-- ships.js reset: remove every ship, clear the array and restore the
counter and timer to their initial values. -/
def fleetReset (cfg : FleetCfg) (_st : FleetState) : FleetState := fleetInit cfg

/-- The random draws of one spawnShip call, each a uniform value in
the interval from 0 to 1. -/
structure SpawnDraw where
  xU : ℝ
  speedU : ℝ
  phaseU : ℝ

/-- THREE.MathUtils.randFloat(lo, hi) with the uniform draw u. -/
def randFloat (lo hi u : ℝ) : ℝ := lo + u * (hi - lo)

/-- ships.js spawnShip: a no-op at the quota; otherwise push a ship at
a random X on the spawn line, heading straight toward shore, with a
speed drawn once, and bump the counter. -/
noncomputable def spawnShip (cfg : FleetCfg) (d : SpawnDraw) (st : FleetState) : FleetState :=
  if cfg.shipCount ≤ st.shipsSpawned then st
  else
    { ships := st.ships ++
        [{ pos := ⟨randFloat cfg.shipSpawnXMin cfg.shipSpawnXMax d.xU, cfg.shipY,
             cfg.shipSpawnZ⟩,
           dir := ⟨0, 0, -1⟩,
           speed := randFloat cfg.shipSpeedMin cfg.shipSpeedMax d.speedU,
           turnRate := cfg.shipTurnRate,
           radius := cfg.shipColliderRadius,
           bobPhase := d.phaseU * Real.pi * 2,
           active := true, crashed := false, visible := true }],
      shipsSpawned := st.shipsSpawned + 1,
      spawnTimer := st.spawnTimer }

/-- ships.js shipIntersectsSpot: circle versus circle in the XZ plane,
squared distance against squared radius sum. -/
def shipIntersectsSpot (shipPos : Vec3R) (shipR : ℝ) (spotC : Vec3R) (spotR : ℝ) : Prop :=
  (shipPos.x - spotC.x) * (shipPos.x - spotC.x) +
      (shipPos.z - spotC.z) * (shipPos.z - spotC.z) ≤
    (shipR + spotR) * (shipR + spotR)

open scoped Classical in
/-- The steering block of ships.js update: when the ship intersects the
control circle around the spot center, rotate the heading toward the
spot by at most turnRate * dt (with the small-angle deadband 1e-4 and
the degenerate-vector guard 1e-6 of the source), zero its Y component
and renormalize; in every other case the heading is unchanged. Returns
the new value of s.direction. -/
noncomputable def steerDir (dt spotRange : ℝ) (spotC : Vec3R) (s : Ship) : Vec3R :=
  if shipIntersectsSpot s.pos s.radius spotC spotRange then
    let desired0 : Vec3R := ⟨spotC.x - s.pos.x, 0, spotC.z - s.pos.z⟩
    if desired0.x * desired0.x + desired0.y * desired0.y + desired0.z * desired0.z
        > 1 / 1000000 then
      let des := normalize3 desired0
      let cur0 : Vec3R := ⟨s.dir.x, 0, s.dir.z⟩
      let cur := if cur0.x * cur0.x + cur0.y * cur0.y + cur0.z * cur0.z > 1 / 1000000
        then normalize3 cur0 else cur0
      let d := max (-1) (min 1 (dot3 cur des))
      let ang := Real.arccos d
      if ang > 1 / 10000 then
        let crossY := cur.x * des.z - cur.z * des.x
        let maxStep := s.turnRate * dt
        let step := -(Real.sign crossY) * min maxStep ang
        normalize3 ⟨(rotY step s.dir).x, 0, (rotY step s.dir).z⟩
      else s.dir
    else s.dir
  else s.dir

open scoped Classical in
/-- The per-ship body of the update loop of ships.js: inactive ships
are skipped; otherwise steer (when a spot center is supplied), move
forward along the heading, apply the bobbing offset to Y, and on
reaching the arrival threshold deactivate and hide the ship. The
lookAt call only orients the visual and has no simulated state. -/
noncomputable def tickShip (cfg : FleetCfg) (dt time : ℝ) (spot : Option Vec3R)
    (s : Ship) : Ship :=
  if s.active = false then s
  else
    let dir1 := match spot with
      | some c => steerDir dt cfg.spotRange c s
      | none => s.dir
    let px := s.pos.x + dir1.x * (s.speed * dt)
    let pz := s.pos.z + dir1.z * (s.speed * dt)
    let py := cfg.shipY + (3 / 20) * Real.sin (time * 2 + s.bobPhase)
    if pz ≤ cfg.shipArriveZ then
      { s with pos := ⟨px, py, pz⟩, dir := dir1, active := false, visible := false }
    else
      { s with pos := ⟨px, py, pz⟩, dir := dir1 }

open scoped Classical in
/-- ships.js update: accumulate the spawn timer, spawn at most one ship
when the interval has elapsed and the quota is open (resetting the
timer), then run the per-ship body over the array, the new ship
included. -/
noncomputable def fleetUpdate (cfg : FleetCfg) (d : SpawnDraw) (dt time : ℝ)
    (spot : Option Vec3R) (st : FleetState) : FleetState :=
  let timer := st.spawnTimer + dt
  let st1 :=
    if st.shipsSpawned < cfg.shipCount ∧ cfg.shipSpawnInterval ≤ timer then
      spawnShip cfg d { st with spawnTimer := 0 }
    else
      { st with spawnTimer := timer }
  { st1 with ships := st1.ships.map (tickShip cfg dt time spot) }

/-- n update ticks with a fixed step dt starting at play time t0, all
with the same spot input; tick k runs at time t0 + k * dt. -/
noncomputable def fleetIter (cfg : FleetCfg) (d : SpawnDraw) (dt t0 : ℝ)
    (spot : Option Vec3R) : ℕ → FleetState → FleetState
  | 0, st => st
  | n + 1, st => fleetUpdate cfg d dt (t0 + n * dt) spot (fleetIter cfg d dt t0 spot n st)

/-- A planar unit heading: Y component zero and unit length in the XZ
plane. -/
def unitXZ (v : Vec3R) : Prop := v.y = 0 ∧ v.x * v.x + v.z * v.z = 1

/-- A fixture ship: active, uncrashed, visible, heading straight at
the shore. -/
def shipW9 : Ship := ⟨⟨0, 0, 100⟩, ⟨0, 0, -1⟩, 1, 1, 5, 0, true, false, true⟩

/-- A fixture configuration with one ship and degenerate ranges. -/
def cfgW9 : FleetCfg := ⟨1, 550, 30, 0, 0, 0, 1, 1, 1000, 1, 90, 5⟩

/-- A fixture fleet state holding the one fixture ship with the quota
already reached. -/
def stW9 : FleetState := ⟨[shipW9], 1, 0⟩

/-- The fixture configuration for the terminal-ship claims. -/
def cfgC5 : FleetCfg := ⟨1, 550, 30, 0, 0, 0, 1, 1, 1000, 1, 90, 5⟩

/-- A ship marked crashed by the rock system (crashed true, hidden)
whose active flag was never cleared, exactly as checkShipCollisions
leaves it. -/
def shipC5 : Ship := ⟨⟨0, 0, 100⟩, ⟨0, 0, -1⟩, 1, 1, 5, 0, true, true, false⟩

/-- A one-ship fleet state holding the crashed ship. -/
def stC5 : FleetState := ⟨[shipC5], 1, 0⟩

/-- An arrived (inactive) fixture ship. -/
def shipC5b : Ship := ⟨⟨0, 0, 100⟩, ⟨0, 0, -1⟩, 1, 1, 5, 0, false, false, false⟩

/-- A one-ship fleet state holding the arrived ship. -/
def stC5b : FleetState := ⟨[shipC5b], 1, 0⟩

/-- The fixture configuration for the spawn-schedule claim: one ship,
interval 2. -/
def cfgW10 : FleetCfg := ⟨1, 550, 30, 0, 0, 0, 1, 1, 2, 1, 90, 5⟩

/-- The shape of the single ship during an undeflected crossing: the
fields spawnShip fixes, with the current bobbing height y and Z
coordinate z. -/
def runShip (v x0 tr rad ph y z : ℝ) : Ship :=
  ⟨⟨x0, y, z⟩, ⟨0, 0, -1⟩, v, tr, rad, ph, true, false, true⟩

/-- The fixture configuration for the deterministic-arrival claim. -/
def cfgW7 : FleetCfg := ⟨1, 550, 30, 0, 0, 0, 1, 1, 1000, 1, 90, 5⟩

/-- A ship heading along positive X, with the spot center directly
behind it. -/
def shipC8 : Ship := ⟨⟨0, 0, 0⟩, ⟨1, 0, 0⟩, 1, 4, 10, 0, true, false, true⟩

/-- The spot center opposite the heading of shipC8. -/
def spotC8 : Vec3R := ⟨-10, 0, 0⟩

/-- A fixture ship for the steering-clamp witness. -/
def shipW8 : Ship := ⟨⟨0, 0, 0⟩, ⟨1, 0, 0⟩, 1, 2, 10, 0, true, false, true⟩

/-! ### Theorems -/

/-- C1: getSpotCenterOnPlane returns a point exactly when the beam is
not in the epsilon band around horizontal and the ray parameter
t = (planeY - O.y)/D.y satisfies 0 < t and t ≤ beamLength, and then the
point is exactly O + D * t; in every other case (epsilon band, t ≤ 0,
or t > beamLength) it returns none. -/
theorem spot_center_characterization (origin dir : Vec3) (planeY beamLength : ℚ)
    (p : Vec3) :
    getSpotCenterOnPlane origin dir planeY beamLength = some p ↔
      (epsBeam ≤ |dir.y| ∧
        0 < (planeY - origin.y) / dir.y ∧
        (planeY - origin.y) / dir.y ≤ beamLength ∧
        p = addScaled origin dir ((planeY - origin.y) / dir.y)) := by
  unfold getSpotCenterOnPlane
  dsimp only
  split_ifs with h1 h2 h3
  · exact ⟨fun h => h.elim, fun h => absurd h1 (not_lt.mpr h.1)⟩
  · exact ⟨fun h => h.elim, fun h => absurd h2 (not_le.mpr h.2.1)⟩
  · exact ⟨fun h => h.elim, fun h => absurd h3 (not_lt.mpr h.2.2.1)⟩
  · constructor
    · intro h
      exact ⟨not_lt.mp h1, not_le.mp h2, not_lt.mp h3, (Option.some.inj h).symm⟩
    · rintro ⟨-, -, -, rfl⟩
      rfl

/-- Concrete instance of C1: a beam pointing straight down from height
10 onto the plane y = 0 with length 20 hits the plane at the point under
the lamp. -/
theorem spot_center_characterization_witness :
    getSpotCenterOnPlane ⟨0, 10, 0⟩ ⟨0, -1, 0⟩ 0 20 = some ⟨0, 0, 0⟩ :=
  (spot_center_characterization ⟨0, 10, 0⟩ ⟨0, -1, 0⟩ 0 20 ⟨0, 0, 0⟩).mpr
    (by refine ⟨by norm_num [epsBeam], by norm_num, by norm_num, ?_⟩
        show _ = addScaled ⟨0, 10, 0⟩ ⟨0, -1, 0⟩ ((0 - 10) / (-1))
        norm_num [addScaled])

/-- Both branches of cycleUpdate return the progress value. -/
theorem cycleUpdate_fst (period time : ℚ) (st : CycleState) :
    (cycleUpdate period time st).1 = cycleProgress period time := by
  unfold cycleUpdate
  dsimp only
  split_ifs <;> rfl

/-- A second cycleUpdate call at the same time never fires the callback
again: the stored index already equals the computed index. -/
theorem cycleUpdate_no_refire (period time : ℚ) (st : CycleState) :
    (cycleUpdate period time (cycleUpdate period time st).2.2).2.1 = false := by
  by_cases h : (⌊time / period⌋ : ℤ) ≠ st.lastCycleIndex
  · have hst : (cycleUpdate period time st).2.2 = ⟨⌊time / period⌋⟩ := by
      unfold cycleUpdate; dsimp only; rw [if_pos h]
    rw [hst]
    unfold cycleUpdate
    dsimp only
    rw [if_neg (by simp)]
  · have hst : (cycleUpdate period time st).2.2 = st := by
      unfold cycleUpdate; dsimp only; rw [if_neg h]
    rw [hst]
    unfold cycleUpdate
    dsimp only
    rw [if_neg h]

/-- For nonnegative time the JavaScript remainder satisfies
(time % period) / period = fract (time / period). -/
theorem cycleProgress_eq_fract (period time : ℚ) (hper : 0 < period) (ht : 0 ≤ time) :
    cycleProgress period time = Int.fract (time / period) := by
  have hq : (0:ℚ) ≤ time / period := div_nonneg ht hper.le
  unfold cycleProgress jsMod jsTrunc
  rw [if_pos hq, Int.fract, sub_div]
  congr 1
  rw [mul_comm]
  exact mul_div_cancel_right₀ _ (ne_of_gt hper)

/-- C2: for nonnegative elapsed play time and positive period, update
returns (t mod period)/period, a value in the interval from 0 inclusive
to 1 exclusive; the callback fires exactly when floor(t/period) differs
from the stored index; the stored index afterwards is floor(t/period);
and an immediate second call with the same t does not fire again. -/
theorem cycle_update_spec (period time : ℚ) (st : CycleState)
    (hper : 0 < period) (ht : 0 ≤ time) :
    (cycleUpdate period time st).1 = jsMod time period / period ∧
    0 ≤ (cycleUpdate period time st).1 ∧
    (cycleUpdate period time st).1 < 1 ∧
    ((cycleUpdate period time st).2.1 = true ↔ ⌊time / period⌋ ≠ st.lastCycleIndex) ∧
    (cycleUpdate period time st).2.2.lastCycleIndex = ⌊time / period⌋ ∧
    (cycleUpdate period time (cycleUpdate period time st).2.2).2.1 = false := by
  have hprog := cycleProgress_eq_fract period time hper ht
  have h0 : 0 ≤ (cycleUpdate period time st).1 := by
    rw [cycleUpdate_fst, hprog]; exact Int.fract_nonneg _
  have h1 : (cycleUpdate period time st).1 < 1 := by
    rw [cycleUpdate_fst, hprog]; exact Int.fract_lt_one _
  refine ⟨cycleUpdate_fst period time st, h0, h1, ?_, ?_, cycleUpdate_no_refire period time st⟩
  · unfold cycleUpdate
    dsimp only
    split_ifs with h <;> simp [h]
  · unfold cycleUpdate
    dsimp only
    split_ifs with h
    · rfl
    · exact (not_not.mp h).symm

/-- Concrete instance of C2: the very first update at time 0 with the
sentinel state fires the callback once, returns progress 0, and a second
call at time 0 does not fire. -/
theorem cycle_update_spec_witness :
    (0:ℚ) < 120 ∧ (0:ℚ) ≤ 0 ∧
      ((cycleUpdate 120 0 initCycleState).1 = jsMod 0 120 / 120 ∧
        0 ≤ (cycleUpdate 120 0 initCycleState).1 ∧
        (cycleUpdate 120 0 initCycleState).1 < 1 ∧
        ((cycleUpdate 120 0 initCycleState).2.1 = true ↔
          ⌊(0:ℚ) / 120⌋ ≠ initCycleState.lastCycleIndex) ∧
        (cycleUpdate 120 0 initCycleState).2.2.lastCycleIndex = ⌊(0:ℚ) / 120⌋ ∧
        (cycleUpdate 120 0 (cycleUpdate 120 0 initCycleState).2.2).2.1 = false) :=
  ⟨by norm_num, le_refl 0, cycle_update_spec 120 0 initCycleState (by norm_num) (le_refl 0)⟩

/-- A candidate that passes isFarEnough is spaced from every placed
rock. -/
theorem isFarEnough_spacing {minSpacing : ℚ} {rocks : List Rock} {x z : ℚ}
    (h : isFarEnough minSpacing rocks x z = true) :
    ∀ r ∈ rocks, (minSpacing + r.cradius) * (minSpacing + r.cradius) ≤ distXZsq x z r := by
  intro r hr
  have := (List.all_eq_true.mp h) r hr
  simp only [Bool.not_eq_true', decide_eq_false_iff_not, not_lt] at this
  exact this

/-- The placement loop preserves pairwise spacing. -/
theorem placeLoop_pairwise (count : ℕ) (minSpacing oceanY : ℚ) :
    ∀ (cands : List Candidate) (rocks : List Rock),
      rocks.Pairwise (rockSpacingOk minSpacing) →
      (placeLoop count minSpacing oceanY cands rocks).Pairwise (rockSpacingOk minSpacing) := by
  intro cands
  induction cands with
  | nil => intro rocks h; exact h
  | cons c cs ih =>
      intro rocks h
      unfold placeLoop
      split_ifs with hcount hfar
      · apply ih
        unfold addRockAt
        rw [List.pairwise_append]
        refine ⟨h, List.pairwise_singleton _ _, ?_⟩
        intro a ha b hb
        simp only [List.mem_singleton] at hb
        subst hb
        exact isFarEnough_spacing hfar a ha
      · exact ih rocks h
      · exact h

/-- C4: in the placed rock list, every rock i keeps squared XZ distance
at least (minSpacing + radius(j))^2 from every rock j placed before it;
the radius of the later rock i does not enter the bound. -/
theorem rock_spacing_invariant (count : ℕ) (minSpacing oceanY : ℚ)
    (cands : List Candidate) (i j : ℕ) (hij : j < i) (ri rj : Rock)
    (hi : (placeRocks count minSpacing oceanY cands)[i]? = some ri)
    (hj : (placeRocks count minSpacing oceanY cands)[j]? = some rj) :
    (minSpacing + rj.cradius) * (minSpacing + rj.cradius) ≤ distXZsq ri.cx ri.cz rj := by
  have hpair : (placeRocks count minSpacing oceanY cands).Pairwise (rockSpacingOk minSpacing) :=
    placeLoop_pairwise count minSpacing oceanY _ [] List.Pairwise.nil
  obtain ⟨hilt, hieq⟩ := List.getElem?_eq_some.mp hi
  obtain ⟨hjlt, hjeq⟩ := List.getElem?_eq_some.mp hj
  have := List.pairwise_iff_getElem.mp hpair j i hjlt hilt hij
  rw [hieq, hjeq] at this
  exact this

/-- Concrete instance of C4: two rocks accepted at x = 0 and x = 100
with minSpacing 5 satisfy the spacing bound. -/
theorem rock_spacing_invariant_witness :
    (0:ℕ) < 1 ∧
      (placeRocks 2 5 0 [⟨0, 0, 2⟩, ⟨100, 0, 2⟩])[1]? = some ⟨100, 1/2, 0, 9/5⟩ ∧
      (placeRocks 2 5 0 [⟨0, 0, 2⟩, ⟨100, 0, 2⟩])[0]? = some ⟨0, 1/2, 0, 9/5⟩ ∧
      ((5:ℚ) + (9/5)) * (5 + (9/5)) ≤ distXZsq 100 0 ⟨0, 1/2, 0, 9/5⟩ :=
  ⟨Nat.zero_lt_one,
    by norm_num [placeRocks, placeLoop, isFarEnough, addRockAt, distXZsq],
    by norm_num [placeRocks, placeLoop, isFarEnough, addRockAt, distXZsq],
    rock_spacing_invariant 2 5 0 [⟨0, 0, 2⟩, ⟨100, 0, 2⟩] 1 0 Nat.zero_lt_one
      ⟨100, 1/2, 0, 9/5⟩ ⟨0, 1/2, 0, 9/5⟩
      (by norm_num [placeRocks, placeLoop, isFarEnough, addRockAt, distXZsq])
      (by norm_num [placeRocks, placeLoop, isFarEnough, addRockAt, distXZsq])⟩

theorem collideShip_fst_eq_some {rocks : List Rock} {s : ShipView} {ri : ℕ} :
    (collideShip rocks s).1 = some ri ↔
      shipSkipped s = false ∧ firstRockHit s rocks = some ri := by
  unfold collideShip
  split_ifs with h
  · simp [h]
  · rw [Bool.not_eq_true] at h
    cases hfr : firstRockHit s rocks <;> simp [h, hfr]

theorem collideShip_snd_of_some {rocks : List Rock} {s : ShipView} {ri : ℕ}
    (h : (collideShip rocks s).1 = some ri) :
    (collideShip rocks s).2 = crashShip s := by
  obtain ⟨hs, hfr⟩ := collideShip_fst_eq_some.mp h
  unfold collideShip
  rw [if_neg (by simp [hs]), hfr]

theorem collideShip_snd_of_none {rocks : List Rock} {s : ShipView}
    (h : (collideShip rocks s).1 = none) :
    (collideShip rocks s).2 = s := by
  unfold collideShip at h ⊢
  split_ifs at h ⊢ with hs
  · rfl
  · cases hfr : firstRockHit s rocks
    · rfl
    · rw [hfr] at h
      simp at h

theorem collideShip_fst_of_skipped {rocks : List Rock} {s : ShipView}
    (h : shipSkipped s = true) : (collideShip rocks s).1 = none := by
  unfold collideShip
  rw [if_pos h]

/-- A crashed ship is always skipped. -/
theorem shipSkipped_crashShip (s : ShipView) : shipSkipped (crashShip s) = true := by
  simp [shipSkipped, crashShip]

/-- The ship list after the loop is the pointwise per-ship result. -/
theorem checkLoop_snd (rocks : List Rock) (si : ℕ) (ships : List ShipView) :
    (checkLoop rocks si ships).2 = ships.map (fun s => (collideShip rocks s).2) := by
  induction ships generalizing si with
  | nil => rfl
  | cons s rest ih => simp [checkLoop, ih]

/-- Every reported hit carries a ship index at least the starting
index. -/
theorem checkLoop_fst_ge (rocks : List Rock) (si : ℕ) (ships : List ShipView) :
    ∀ pr ∈ (checkLoop rocks si ships).1, si ≤ pr.1 := by
  induction ships generalizing si with
  | nil => intro pr h; exact absurd h (List.not_mem_nil pr)
  | cons s rest ih =>
      intro pr h
      unfold checkLoop at h
      rw [List.mem_append] at h
      rcases h with h | h
      · cases hc : (collideShip rocks s).1 <;> rw [hc] at h
        · exact absurd h (List.not_mem_nil pr)
        · rw [List.mem_singleton] at h
          subst h
          exact le_refl si
      · exact le_trans (Nat.le_succ si) (ih (si + 1) pr h)

/-- Membership in the hit list: the hit of ship index si + k is exactly
the per-ship result of the ship at offset k. -/
theorem checkLoop_mem (rocks : List Rock) (si : ℕ) (ships : List ShipView)
    (pr : ℕ × ℕ) :
    pr ∈ (checkLoop rocks si ships).1 ↔
      ∃ k, ∃ hk : k < ships.length,
        pr.1 = si + k ∧ (collideShip rocks ships[k]).1 = some pr.2 := by
  induction ships generalizing si with
  | nil => simp [checkLoop]
  | cons s rest ih =>
      unfold checkLoop
      rw [List.mem_append, ih (si + 1)]
      constructor
      · rintro (h | ⟨k, hk, h1, h2⟩)
        · cases hc : (collideShip rocks s).1 <;> rw [hc] at h
          · exact absurd h (List.not_mem_nil pr)
          · rw [List.mem_singleton] at h
            subst h
            exact ⟨0, Nat.succ_pos _, by simp, by simpa using hc⟩
        · exact ⟨k + 1, by simpa using Nat.succ_lt_succ hk,
            by omega, by simpa using h2⟩
      · rintro ⟨k, hk, h1, h2⟩
        cases k with
        | zero =>
            left
            simp only [List.getElem_cons_zero] at h2
            rw [h2]
            rw [List.mem_singleton]
            have : pr = (pr.1, pr.2) := rfl
            rw [this, h1]
            simp
        | succ k =>
            right
            exact ⟨k, by simpa using Nat.lt_of_succ_lt_succ hk, by omega,
              by simpa using h2⟩

/-- The ship indices of the reported hits are pairwise distinct: at
most one collision event per ship per call. -/
theorem checkLoop_nodup (rocks : List Rock) (si : ℕ) (ships : List ShipView) :
    ((checkLoop rocks si ships).1.map Prod.fst).Nodup := by
  induction ships generalizing si with
  | nil => simp [checkLoop]
  | cons s rest ih =>
      unfold checkLoop
      rw [List.map_append, List.nodup_append]
      refine ⟨?_, ih (si + 1), ?_⟩
      · cases hc : (collideShip rocks s).1 <;> simp
      · intro a ha hb
        cases hc : (collideShip rocks s).1 <;> rw [hc] at ha
        · simp at ha
        · simp only [List.map_cons, List.map_nil, List.mem_singleton] at ha
          rw [List.mem_map] at hb
          obtain ⟨pr, hpr, hprfst⟩ := hb
          have hge := checkLoop_fst_ge rocks (si + 1) rest pr hpr
          omega

/-- C3: checkShipCollisions tests only active, uncrashed, visible
ships; every reported hit names an eligible ship and its first
overlapping rock in insertion order, and that ship is crashed and
hidden in the result; hit ship indices are pairwise distinct (at most
one event per ship per call); skipped ships are untouched and produce
no event; an eligible ship with an overlapping rock always produces its
event; and no ship hit in one call produces an event in the next call
on the resulting ship list. -/
theorem check_collisions_spec (rocks : List Rock) (ships : List ShipView) :
    (checkShipCollisions rocks ships).2.length = ships.length ∧
    ((checkShipCollisions rocks ships).1.map Prod.fst).Nodup ∧
    (∀ pr ∈ (checkShipCollisions rocks ships).1,
        ∃ hk : pr.1 < ships.length,
          shipSkipped ships[pr.1] = false ∧
          firstRockHit ships[pr.1] rocks = some pr.2 ∧
          (checkShipCollisions rocks ships).2[pr.1]? = some (crashShip ships[pr.1])) ∧
    (∀ i : ℕ, ∀ s : ShipView, ships[i]? = some s → shipSkipped s = true →
        (checkShipCollisions rocks ships).2[i]? = some s ∧
        ∀ pr ∈ (checkShipCollisions rocks ships).1, pr.1 ≠ i) ∧
    (∀ i : ℕ, ∀ s : ShipView, ships[i]? = some s → shipSkipped s = false →
        ∀ ri : ℕ, firstRockHit s rocks = some ri →
          (i, ri) ∈ (checkShipCollisions rocks ships).1) ∧
    (∀ pr ∈ (checkShipCollisions rocks ships).1,
        ∀ pr2 ∈ (checkShipCollisions rocks (checkShipCollisions rocks ships).2).1,
          pr2.1 ≠ pr.1) := by
  refine ⟨?_, checkLoop_nodup rocks 0 ships, ?_, ?_, ?_, ?_⟩
  · unfold checkShipCollisions
    rw [checkLoop_snd]
    exact List.length_map ships _
  · intro pr hpr
    obtain ⟨k, hk, h1, h2⟩ := (checkLoop_mem rocks 0 ships pr).mp hpr
    rw [Nat.zero_add] at h1
    subst h1
    obtain ⟨hsk, hfr⟩ := collideShip_fst_eq_some.mp h2
    refine ⟨hk, hsk, hfr, ?_⟩
    unfold checkShipCollisions
    rw [checkLoop_snd, List.getElem?_map, List.getElem?_eq_getElem hk]
    rw [Option.map_some', collideShip_snd_of_some h2]
  · intro i s his hsk
    have hi : i < ships.length := (List.getElem?_eq_some.mp his).1
    have hgs : ships[i] = s := (List.getElem?_eq_some.mp his).2
    constructor
    · unfold checkShipCollisions
      rw [checkLoop_snd, List.getElem?_map, his]
      rw [Option.map_some', collideShip_snd_of_none (collideShip_fst_of_skipped hsk)]
    · intro pr hpr hpi
      obtain ⟨k, hk, h1, h2⟩ := (checkLoop_mem rocks 0 ships pr).mp hpr
      rw [Nat.zero_add] at h1
      rw [h1] at hpi
      subst hpi
      rw [hgs] at h2
      rw [collideShip_fst_of_skipped hsk] at h2
      exact Option.noConfusion h2
  · intro i s his hsk ri hfr
    have hi : i < ships.length := (List.getElem?_eq_some.mp his).1
    have hgs : ships[i] = s := (List.getElem?_eq_some.mp his).2
    apply (checkLoop_mem rocks 0 ships (i, ri)).mpr
    refine ⟨i, hi, (Nat.zero_add i).symm, ?_⟩
    rw [hgs]
    exact collideShip_fst_eq_some.mpr ⟨hsk, hfr⟩
  · intro pr hpr pr2 hpr2 heq
    obtain ⟨k, hk, h1, h2⟩ := (checkLoop_mem rocks 0 ships pr).mp hpr
    rw [Nat.zero_add] at h1
    subst h1
    obtain ⟨k2, hk2, h21, h22⟩ :=
      (checkLoop_mem rocks 0 (checkShipCollisions rocks ships).2 pr2).mp hpr2
    rw [Nat.zero_add] at h21
    have hkk : k2 = pr.1 := by omega
    subst hkk
    have hmap : (checkShipCollisions rocks ships).2 =
        ships.map (fun s => (collideShip rocks s).2) := checkLoop_snd rocks 0 ships
    have helem : (checkShipCollisions rocks ships).2[pr.1] =
        (collideShip rocks ships[pr.1]).2 := by
      simp only [hmap, List.getElem_map]
    rw [helem, collideShip_snd_of_some h2,
      collideShip_fst_of_skipped (shipSkipped_crashShip _)] at h22
    exact Option.noConfusion h22

/-- Concrete instance of C3 (the scenario of the spec): a rock collider
of radius 9 at the origin and an eligible ship sphere of radius 3 at
x = 5 produce the collision event (0, 0). -/
theorem check_collisions_spec_witness :
    ([(⟨5, 0, 0, 3, false, true, true⟩ : ShipView)])[0]? =
        some (⟨5, 0, 0, 3, false, true, true⟩ : ShipView) ∧
    shipSkipped ⟨5, 0, 0, 3, false, true, true⟩ = false ∧
    firstRockHit ⟨5, 0, 0, 3, false, true, true⟩ [⟨0, 0, 0, 9⟩] = some 0 ∧
    (0, 0) ∈ (checkShipCollisions [⟨0, 0, 0, 9⟩] [⟨5, 0, 0, 3, false, true, true⟩]).1 :=
  ⟨rfl, rfl, by norm_num [firstRockHit, firstRockHitFrom, sphereOverlap],
    (check_collisions_spec [⟨0, 0, 0, 9⟩] [⟨5, 0, 0, 3, false, true, true⟩]).2.2.2.2.1
      0 ⟨5, 0, 0, 3, false, true, true⟩ rfl rfl 0
      (by norm_num [firstRockHit, firstRockHitFrom, sphereOverlap])⟩

/-- C6 at the failing input: a tick body that throws on frame 0 is
caught at the animate boundary and logged, but because
requestAnimationFrame sits inside the try block after the throwing
statement, no further invocation is scheduled: the subsequent step runs
nothing, so the next tick does not execute, contrary to the claim. -/
theorem animate_halts_after_caught_error :
    (animateStep (fun _ => Except.error "boom") initLoopState).log =
        ["Animation loop crashed: boom"] ∧
    (animateStep (fun _ => Except.error "boom") initLoopState).scheduled = false ∧
    animateStep (fun _ => Except.error "boom")
        (animateStep (fun _ => Except.error "boom") initLoopState) =
      animateStep (fun _ => Except.error "boom") initLoopState ∧
    (animateStep (fun _ => Except.error "boom") initLoopState).frame = 0 :=
  ⟨rfl, rfl, rfl, rfl⟩

theorem norm3_eq_one_of_unitXZ {v : Vec3R} (h : unitXZ v) : norm3 v = 1 := by
  unfold norm3
  rw [h.1]
  rw [show v.x * v.x + 0 * 0 + v.z * v.z = 1 by rw [← h.2]; ring]
  exact Real.sqrt_one

theorem unitXZ_of_norm3 {v : Vec3R} (hy : v.y = 0) (h : norm3 v = 1) : unitXZ v := by
  refine ⟨hy, ?_⟩
  unfold norm3 at h
  rw [hy] at h
  have := Real.sqrt_eq_one.mp h
  linarith

theorem normalize3_of_norm_one {v : Vec3R} (h : norm3 v = 1) : normalize3 v = v := by
  unfold normalize3
  rw [h]
  simp

theorem rotY_y (t : ℝ) (v : Vec3R) : (rotY t v).y = v.y := rfl

theorem rotY_sq (t : ℝ) (v : Vec3R) :
    (rotY t v).x * (rotY t v).x + (rotY t v).z * (rotY t v).z =
      v.x * v.x + v.z * v.z := by
  unfold rotY
  dsimp only
  have h : Real.sin t * Real.sin t + Real.cos t * Real.cos t = 1 := by
    have := Real.sin_sq_add_cos_sq t
    rw [sq, sq] at this
    exact this
  linear_combination (v.x * v.x + v.z * v.z) * h

theorem rotY_unitXZ {t : ℝ} {v : Vec3R} (h : unitXZ v) : unitXZ (rotY t v) :=
  ⟨by rw [rotY_y]; exact h.1, by rw [rotY_sq]; exact h.2⟩

theorem setY0_rotY_eq {t : ℝ} {v : Vec3R} (hy : v.y = 0) :
    (⟨(rotY t v).x, 0, (rotY t v).z⟩ : Vec3R) = rotY t v := by
  have : (rotY t v).y = 0 := by rw [rotY_y]; exact hy
  rw [← this]

/-- The steering block preserves planar unit headings: every branch
either keeps the heading or rotates it in the XZ plane and
renormalizes. -/
theorem steerDir_unitXZ {dt spotRange : ℝ} {spotC : Vec3R} {s : Ship}
    (h : unitXZ s.dir) : unitXZ (steerDir dt spotRange spotC s) := by
  unfold steerDir
  dsimp only
  split_ifs
  all_goals
    first
      | exact h
      | (rw [setY0_rotY_eq h.1,
          normalize3_of_norm_one (norm3_eq_one_of_unitXZ (rotY_unitXZ h))]
         exact rotY_unitXZ h)

/-- The per-ship update body preserves planar unit headings. -/
theorem tickShip_unitXZ {cfg : FleetCfg} {dt time : ℝ} {spot : Option Vec3R}
    {s : Ship} (h : unitXZ s.dir) : unitXZ (tickShip cfg dt time spot s).dir := by
  unfold tickShip
  dsimp only
  split_ifs with h1 h2
  · exact h
  · cases spot with
    | none => exact h
    | some c => exact steerDir_unitXZ h
  · cases spot with
    | none => exact h
    | some c => exact steerDir_unitXZ h

/-- C9: if every ship heading is a planar unit vector before a fleet
update, then after the update every ship heading (the freshly spawned
ship included) still has Y component zero and length exactly one,
whether or not a steering correction was applied. -/
theorem heading_invariant (cfg : FleetCfg) (d : SpawnDraw) (dt time : ℝ)
    (spot : Option Vec3R) (st : FleetState)
    (h : ∀ s ∈ st.ships, s.dir.y = 0 ∧ norm3 s.dir = 1) :
    ∀ s2 ∈ (fleetUpdate cfg d dt time spot st).ships,
      s2.dir.y = 0 ∧ norm3 s2.dir = 1 := by
  intro s2 hs2
  unfold fleetUpdate at hs2
  dsimp only at hs2
  rw [List.mem_map] at hs2
  obtain ⟨s, hs, rfl⟩ := hs2
  have hsu : unitXZ s.dir := by
    split_ifs at hs with hc
    · unfold spawnShip at hs
      split_ifs at hs with hq
      · exact unitXZ_of_norm3 (h s hs).1 (h s hs).2
      · dsimp only at hs
        rw [List.mem_append] at hs
        rcases hs with hs | hs
        · exact unitXZ_of_norm3 (h s hs).1 (h s hs).2
        · rw [List.mem_singleton] at hs
          subst hs
          exact ⟨rfl, by norm_num⟩
    · exact unitXZ_of_norm3 (h s hs).1 (h s hs).2
  have h2 := @tickShip_unitXZ cfg dt time spot s hsu
  exact ⟨h2.1, norm3_eq_one_of_unitXZ h2⟩

/-- Concrete instance of C9: a one-ship fleet heading straight at the
shore keeps a planar unit heading through an update with no spot. -/
theorem heading_invariant_witness :
    (∀ s ∈ stW9.ships, s.dir.y = 0 ∧ norm3 s.dir = 1) ∧
    (∀ s2 ∈ (fleetUpdate cfgW9 ⟨0, 0, 0⟩ 1 0 none stW9).ships,
      s2.dir.y = 0 ∧ norm3 s2.dir = 1) := by
  have hpre : ∀ s ∈ stW9.ships, s.dir.y = 0 ∧ norm3 s.dir = 1 := by
    intro s hs
    simp only [stW9, List.mem_singleton] at hs
    subst hs
    exact ⟨rfl, norm3_eq_one_of_unitXZ ⟨rfl, by norm_num [shipW9]⟩⟩
  exact ⟨hpre, heading_invariant _ _ _ _ _ _ hpre⟩

/-- C5 amended: an inactive (arrived) ship is left entirely unchanged
by every subsequent fleet update, and it stays in the collection at its
index until an explicit reset. -/
theorem inactive_ship_untouched (cfg : FleetCfg) (d : SpawnDraw) (dt time : ℝ)
    (spot : Option Vec3R) (st : FleetState) (i : ℕ) (s : Ship)
    (hgs : st.ships[i]? = some s) (ha : s.active = false) :
    (fleetUpdate cfg d dt time spot st).ships[i]? = some s := by
  have hi : i < st.ships.length := (List.getElem?_eq_some.mp hgs).1
  have htick : tickShip cfg dt time spot s = s := by
    unfold tickShip
    rw [if_pos ha]
  unfold fleetUpdate
  dsimp only
  split_ifs with hc
  · unfold spawnShip
    rw [if_neg (not_le.mpr hc.1)]
    dsimp only
    rw [List.map_append, List.getElem?_append, List.getElem?_map, hgs,
      Option.map_some', htick]
    rw [List.length_map, if_pos hi]
  · rw [List.getElem?_map, hgs, Option.map_some', htick]

/-- C5 counterexample: a crashed (terminal) ship is still advanced by
the next fleet update: its Z coordinate moves from 100 to 99, because
ships.js skips only inactive ships and the collision code never clears
the active flag. -/
theorem crashed_ship_still_moves :
    shipC5.crashed = true ∧ shipC5.active = true ∧
    stC5.ships[0]? = some shipC5 ∧ shipC5.pos.z = 100 ∧
    (fleetUpdate cfgC5 ⟨0, 0, 0⟩ 1 0 none stC5).ships[0]?.map (fun s => s.pos.z) =
      some 99 := by
  refine ⟨rfl, rfl, rfl, rfl, ?_⟩
  norm_num [fleetUpdate, spawnShip, tickShip, stC5, shipC5, cfgC5]

/-- Concrete instance of the amended C5: an inactive ship is unchanged
and still present after a fleet update. -/
theorem inactive_ship_untouched_witness :
    stC5b.ships[0]? = some shipC5b ∧ shipC5b.active = false ∧
    (fleetUpdate cfgC5 ⟨0, 0, 0⟩ 1 0 none stC5b).ships[0]? = some shipC5b :=
  ⟨rfl, rfl, inactive_ship_untouched cfgC5 ⟨0, 0, 0⟩ 1 0 none stC5b 0 shipC5b rfl rfl⟩

/-- C10: the spawn counter never exceeds the configured ship count
(spawnShip is a no-op once the quota is reached), a fleet update spawns
at most one ship, it spawns exactly when the accumulated timer has
reached the spawn interval with the quota open (resetting the timer to
0, otherwise the timer keeps accumulating), and reset restores the
counter, timer and ship list to their initial values. -/
theorem spawn_quota_and_interval (cfg : FleetCfg) (d : SpawnDraw) (dt time : ℝ)
    (spot : Option Vec3R) (st : FleetState)
    (h : st.shipsSpawned ≤ cfg.shipCount) :
    (spawnShip cfg d st).shipsSpawned ≤ cfg.shipCount ∧
    (cfg.shipCount ≤ st.shipsSpawned → spawnShip cfg d st = st) ∧
    (fleetUpdate cfg d dt time spot st).shipsSpawned ≤ cfg.shipCount ∧
    (fleetUpdate cfg d dt time spot st).ships.length ≤ st.ships.length + 1 ∧
    (st.shipsSpawned < cfg.shipCount ∧ cfg.shipSpawnInterval ≤ st.spawnTimer + dt →
      (fleetUpdate cfg d dt time spot st).shipsSpawned = st.shipsSpawned + 1 ∧
      (fleetUpdate cfg d dt time spot st).spawnTimer = 0) ∧
    (¬(st.shipsSpawned < cfg.shipCount ∧ cfg.shipSpawnInterval ≤ st.spawnTimer + dt) →
      (fleetUpdate cfg d dt time spot st).shipsSpawned = st.shipsSpawned ∧
      (fleetUpdate cfg d dt time spot st).spawnTimer = st.spawnTimer + dt ∧
      (fleetUpdate cfg d dt time spot st).ships.length = st.ships.length) ∧
    fleetReset cfg st = fleetInit cfg := by
  refine ⟨?_, ?_, ?_, ?_, ?_, ?_, rfl⟩
  · unfold spawnShip
    split_ifs with hq
    · exact h
    · exact Nat.succ_le_of_lt (not_le.mp hq)
  · intro hq
    unfold spawnShip
    rw [if_pos hq]
  · unfold fleetUpdate
    dsimp only
    split_ifs with hc
    · unfold spawnShip
      rw [if_neg (not_le.mpr hc.1)]
      exact Nat.succ_le_of_lt hc.1
    · exact h
  · unfold fleetUpdate
    dsimp only
    split_ifs with hc
    · unfold spawnShip
      rw [if_neg (not_le.mpr hc.1)]
      dsimp only
      rw [List.length_map, List.length_append]
      exact le_refl _
    · rw [List.length_map]
      exact Nat.le_succ _
  · intro hc
    unfold fleetUpdate
    dsimp only
    rw [if_pos hc]
    unfold spawnShip
    rw [if_neg (not_le.mpr hc.1)]
    exact ⟨rfl, rfl⟩
  · intro hc
    unfold fleetUpdate
    dsimp only
    rw [if_neg hc]
    exact ⟨rfl, rfl, List.length_map _ _⟩

/-- Concrete instance of C10 at the freshly created fleet. -/
theorem spawn_quota_and_interval_witness :
    (fleetInit cfgW10).shipsSpawned ≤ cfgW10.shipCount ∧
    ((spawnShip cfgW10 ⟨0, 0, 0⟩ (fleetInit cfgW10)).shipsSpawned ≤ cfgW10.shipCount ∧
      (cfgW10.shipCount ≤ (fleetInit cfgW10).shipsSpawned →
        spawnShip cfgW10 ⟨0, 0, 0⟩ (fleetInit cfgW10) = fleetInit cfgW10) ∧
      (fleetUpdate cfgW10 ⟨0, 0, 0⟩ 1 0 none (fleetInit cfgW10)).shipsSpawned ≤
        cfgW10.shipCount ∧
      (fleetUpdate cfgW10 ⟨0, 0, 0⟩ 1 0 none (fleetInit cfgW10)).ships.length ≤
        (fleetInit cfgW10).ships.length + 1 ∧
      ((fleetInit cfgW10).shipsSpawned < cfgW10.shipCount ∧
          cfgW10.shipSpawnInterval ≤ (fleetInit cfgW10).spawnTimer + 1 →
        (fleetUpdate cfgW10 ⟨0, 0, 0⟩ 1 0 none (fleetInit cfgW10)).shipsSpawned =
          (fleetInit cfgW10).shipsSpawned + 1 ∧
        (fleetUpdate cfgW10 ⟨0, 0, 0⟩ 1 0 none (fleetInit cfgW10)).spawnTimer = 0) ∧
      (¬((fleetInit cfgW10).shipsSpawned < cfgW10.shipCount ∧
          cfgW10.shipSpawnInterval ≤ (fleetInit cfgW10).spawnTimer + 1) →
        (fleetUpdate cfgW10 ⟨0, 0, 0⟩ 1 0 none (fleetInit cfgW10)).shipsSpawned =
          (fleetInit cfgW10).shipsSpawned ∧
        (fleetUpdate cfgW10 ⟨0, 0, 0⟩ 1 0 none (fleetInit cfgW10)).spawnTimer =
          (fleetInit cfgW10).spawnTimer + 1 ∧
        (fleetUpdate cfgW10 ⟨0, 0, 0⟩ 1 0 none (fleetInit cfgW10)).ships.length =
          (fleetInit cfgW10).ships.length) ∧
      fleetReset cfgW10 (fleetInit cfgW10) = fleetInit cfgW10) :=
  ⟨Nat.zero_le _,
    spawn_quota_and_interval cfgW10 ⟨0, 0, 0⟩ 1 0 none (fleetInit cfgW10) (Nat.zero_le _)⟩

/-- One undeflected tick of the running ship before arrival: it
advances by speed * dt straight down the Z axis and bobs. -/
theorem tickShip_none_run (cfg : FleetCfg) (dt time v x0 tr rad ph y z : ℝ)
    (hnoarr : cfg.shipArriveZ < z - v * dt) :
    tickShip cfg dt time none (runShip v x0 tr rad ph y z) =
      runShip v x0 tr rad ph
        (cfg.shipY + (3 / 20) * Real.sin (time * 2 + ph)) (z - v * dt) := by
  unfold tickShip runShip
  dsimp only
  rw [if_neg (by simp)]
  rw [if_neg (by push_neg; nlinarith)]
  simp only [Ship.mk.injEq, Vec3R.mk.injEq]
  norm_num
  ring

/-- The arrival tick: when the advanced Z falls at or below the
threshold, the ship is deactivated and hidden at that position. -/
theorem tickShip_none_arrive (cfg : FleetCfg) (dt time v x0 tr rad ph y z : ℝ)
    (harr : z - v * dt ≤ cfg.shipArriveZ) :
    tickShip cfg dt time none (runShip v x0 tr rad ph y z) =
      ⟨⟨x0, cfg.shipY + (3 / 20) * Real.sin (time * 2 + ph), z - v * dt⟩,
        ⟨0, 0, -1⟩, v, tr, rad, ph, false, false, false⟩ := by
  unfold tickShip runShip
  dsimp only
  rw [if_neg (by simp)]
  rw [if_pos (by nlinarith)]
  simp only [Ship.mk.injEq, Vec3R.mk.injEq]
  norm_num
  ring

/-- One undeflected update of the one-ship fleet before arrival: no
spawn fires because the quota is full, and the ship advances. -/
theorem fleetUpdate_running_step (cfg : FleetCfg) (d : SpawnDraw)
    (dt time v x0 tr rad ph τ y z : ℝ)
    (hq : cfg.shipCount ≤ 1) (hnoarr : cfg.shipArriveZ < z - v * dt) :
    fleetUpdate cfg d dt time none ⟨[runShip v x0 tr rad ph y z], 1, τ⟩ =
      ⟨[runShip v x0 tr rad ph
          (cfg.shipY + (3 / 20) * Real.sin (time * 2 + ph)) (z - v * dt)],
        1, τ + dt⟩ := by
  unfold fleetUpdate
  dsimp only
  rw [if_neg (fun hcc => absurd hcc.1 (by omega))]
  dsimp only
  simp only [List.map_cons, List.map_nil]
  rw [tickShip_none_run cfg dt time v x0 tr rad ph y z hnoarr]

/-- The arrival update of the one-ship fleet. -/
theorem fleetUpdate_arrival_step (cfg : FleetCfg) (d : SpawnDraw)
    (dt time v x0 tr rad ph τ y z : ℝ)
    (hq : cfg.shipCount ≤ 1) (harr : z - v * dt ≤ cfg.shipArriveZ) :
    fleetUpdate cfg d dt time none ⟨[runShip v x0 tr rad ph y z], 1, τ⟩ =
      ⟨[⟨⟨x0, cfg.shipY + (3 / 20) * Real.sin (time * 2 + ph), z - v * dt⟩,
          ⟨0, 0, -1⟩, v, tr, rad, ph, false, false, false⟩],
        1, τ + dt⟩ := by
  unfold fleetUpdate
  dsimp only
  rw [if_neg (fun hcc => absurd hcc.1 (by omega))]
  dsimp only
  simp only [List.map_cons, List.map_nil]
  rw [tickShip_none_arrive cfg dt time v x0 tr rad ph y z harr]

/-- While k ticks have consumed less distance than the crossing, the
one-ship fleet is still in its running shape with
z = spawnZ - v * k * dt. -/
theorem fleetIter_running (cfg : FleetCfg) (d : SpawnDraw) (dt v x0 tr rad ph τ : ℝ)
    (hdt : 0 < dt) (hq : cfg.shipCount ≤ 1) (hv : 0 < v) :
    ∀ k : ℕ, v * ((k : ℝ) * dt) < cfg.shipSpawnZ - cfg.shipArriveZ →
      ∃ y : ℝ,
        fleetIter cfg d dt 0 none k
            ⟨[runShip v x0 tr rad ph cfg.shipY cfg.shipSpawnZ], 1, τ⟩ =
          ⟨[runShip v x0 tr rad ph y (cfg.shipSpawnZ - v * ((k : ℝ) * dt))],
            1, τ + (k : ℝ) * dt⟩ := by
  intro k
  induction k with
  | zero =>
      intro _
      refine ⟨cfg.shipY, ?_⟩
      simp [fleetIter]
  | succ k ih =>
      intro hk1
      have hstep : (k : ℝ) * dt < ((k + 1 : ℕ) : ℝ) * dt := by
        push_cast
        nlinarith
      have hkprev : v * ((k : ℝ) * dt) < cfg.shipSpawnZ - cfg.shipArriveZ :=
        lt_of_le_of_lt (le_of_lt (mul_lt_mul_of_pos_left hstep hv)) hk1
      obtain ⟨y, hy⟩ := ih hkprev
      have hnoarr : cfg.shipArriveZ <
          (cfg.shipSpawnZ - v * ((k : ℝ) * dt)) - v * dt := by
        push_cast at hk1 ⊢
        nlinarith
      refine ⟨cfg.shipY + (3 / 20) * Real.sin ((0 + (k : ℝ) * dt) * 2 + ph), ?_⟩
      show fleetUpdate cfg d dt (0 + (k : ℝ) * dt) none
          (fleetIter cfg d dt 0 none k
            ⟨[runShip v x0 tr rad ph cfg.shipY cfg.shipSpawnZ], 1, τ⟩) = _
      rw [hy, fleetUpdate_running_step cfg d dt (0 + (k : ℝ) * dt) v x0 tr rad ph
        (τ + (k : ℝ) * dt) y (cfg.shipSpawnZ - v * ((k : ℝ) * dt)) hq hnoarr]
      simp only [FleetState.mk.injEq, List.cons.injEq, runShip, Ship.mk.injEq,
        Vec3R.mk.injEq, and_true, true_and]
      push_cast
      constructor
      · ring
      · ring

/-- C7: with speed (spawnZ - arriveZ) / period (the equal-bounds draw
of startPlay), a ship in the spawn state at play time 0 that never
receives a spot center reaches Z = arriveZ on tick n = ceil(period/dt),
whose time n * dt lies within one dt above the period, and at that tick
it is deactivated and hidden. -/
theorem deterministic_arrival (cfg : FleetCfg) (d : SpawnDraw)
    (period dt v x0 tr rad ph τ : ℝ)
    (hdt : 0 < dt) (hper : 0 < period)
    (hz : cfg.shipArriveZ < cfg.shipSpawnZ) (hq : cfg.shipCount ≤ 1)
    (hv : v = (cfg.shipSpawnZ - cfg.shipArriveZ) / period) :
    period ≤ ((⌈period / dt⌉.toNat : ℝ)) * dt ∧
    ((⌈period / dt⌉.toNat : ℝ)) * dt < period + dt ∧
    ∃ y : ℝ,
      fleetIter cfg d dt 0 none ⌈period / dt⌉.toNat
          ⟨[runShip v x0 tr rad ph cfg.shipY cfg.shipSpawnZ], 1, τ⟩ =
        ⟨[⟨⟨x0, y, cfg.shipSpawnZ - v * ((⌈period / dt⌉.toNat : ℝ) * dt)⟩,
            ⟨0, 0, -1⟩, v, tr, rad, ph, false, false, false⟩],
          1, τ + (⌈period / dt⌉.toNat : ℝ) * dt⟩ ∧
      cfg.shipSpawnZ - v * ((⌈period / dt⌉.toNat : ℝ) * dt) ≤ cfg.shipArriveZ := by
  have hq0 : 0 < period / dt := div_pos hper hdt
  have hceil : 0 < ⌈period / dt⌉ := Int.ceil_pos.mpr hq0
  have hn1 : 1 ≤ ⌈period / dt⌉.toNat := by omega
  have hcast : ((⌈period / dt⌉.toNat : ℕ) : ℝ) = ((⌈period / dt⌉ : ℤ) : ℝ) := by
    exact_mod_cast congrArg (fun z : ℤ => (z : ℝ))
      (Int.toNat_of_nonneg (le_of_lt hceil))
  have hge : period / dt ≤ ((⌈period / dt⌉.toNat : ℕ) : ℝ) := by
    rw [hcast]
    exact Int.le_ceil _
  have hconc1 : period ≤ ((⌈period / dt⌉.toNat : ℝ)) * dt := by
    have := (div_le_iff₀ hdt).mp hge
    linarith
  have hlt : ((⌈period / dt⌉.toNat : ℝ)) - 1 < period / dt := by
    have hz1 : (⌈period / dt⌉ - 1 : ℤ) < ⌈period / dt⌉ := by omega
    have := Int.lt_ceil.mp hz1
    rw [hcast]
    push_cast at this ⊢
    linarith
  have hconc2 : ((⌈period / dt⌉.toNat : ℝ)) * dt < period + dt := by
    have := (lt_div_iff₀ hdt).mp hlt
    nlinarith
  have hv0 : 0 < v := by
    rw [hv]
    exact div_pos (by linarith) hper
  have hvper : v * period = cfg.shipSpawnZ - cfg.shipArriveZ := by
    rw [hv]
    field_simp
  have hsub : (((⌈period / dt⌉.toNat - 1 : ℕ)) : ℝ) =
      ((⌈period / dt⌉.toNat : ℝ)) - 1 := by
    push_cast [Nat.cast_sub hn1]
    ring
  have hrun_cond : v * ((((⌈period / dt⌉.toNat - 1 : ℕ)) : ℝ) * dt) <
      cfg.shipSpawnZ - cfg.shipArriveZ := by
    rw [hsub, ← hvper]
    have h1 : (((⌈period / dt⌉.toNat : ℝ)) - 1) * dt < period :=
      (lt_div_iff₀ hdt).mp hlt
    nlinarith
  obtain ⟨y, hrun⟩ := fleetIter_running cfg d dt v x0 tr rad ph τ hdt hq hv0
    (⌈period / dt⌉.toNat - 1) hrun_cond
  have harrStep : (cfg.shipSpawnZ -
        v * ((((⌈period / dt⌉.toNat - 1 : ℕ)) : ℝ) * dt)) - v * dt ≤
      cfg.shipArriveZ := by
    rw [hsub]
    have h2 : v * period ≤ v * (((⌈period / dt⌉.toNat : ℝ)) * dt) :=
      mul_le_mul_of_nonneg_left hconc1 (le_of_lt hv0)
    nlinarith
  refine ⟨hconc1, hconc2, ?_⟩
  have hiter : fleetIter cfg d dt 0 none ⌈period / dt⌉.toNat
      ⟨[runShip v x0 tr rad ph cfg.shipY cfg.shipSpawnZ], 1, τ⟩ =
      fleetUpdate cfg d dt (0 + (((⌈period / dt⌉.toNat - 1 : ℕ)) : ℝ) * dt) none
        (fleetIter cfg d dt 0 none (⌈period / dt⌉.toNat - 1)
          ⟨[runShip v x0 tr rad ph cfg.shipY cfg.shipSpawnZ], 1, τ⟩) := by
    conv_lhs =>
      rw [show ⌈period / dt⌉.toNat = (⌈period / dt⌉.toNat - 1) + 1 by omega]
    rfl
  rw [hiter, hrun, fleetUpdate_arrival_step cfg d dt
    (0 + (((⌈period / dt⌉.toNat - 1 : ℕ)) : ℝ) * dt) v x0 tr rad ph
    (τ + (((⌈period / dt⌉.toNat - 1 : ℕ)) : ℝ) * dt) y
    (cfg.shipSpawnZ - v * ((((⌈period / dt⌉.toNat - 1 : ℕ)) : ℝ) * dt)) hq harrStep]
  refine ⟨cfg.shipY + (3 / 20) *
      Real.sin ((0 + (((⌈period / dt⌉.toNat - 1 : ℕ)) : ℝ) * dt) * 2 + ph), ?_, ?_⟩
  · simp only [FleetState.mk.injEq, List.cons.injEq, Ship.mk.injEq, Vec3R.mk.injEq,
      and_true, true_and]
    rw [hsub]
    constructor
    · ring
    · ring
  · have h2 : v * period ≤ v * (((⌈period / dt⌉.toNat : ℝ)) * dt) :=
      mul_le_mul_of_nonneg_left hconc1 (le_of_lt hv0)
    nlinarith

/-- Concrete instance of C7: spawnZ 550, arriveZ 30, period 2, dt 1,
speed (550 - 30) / 2 = 260; the arrival tick lands within one dt of the
period. -/
theorem deterministic_arrival_witness :
    (0 : ℝ) < 1 ∧ (0 : ℝ) < 2 ∧ cfgW7.shipArriveZ < cfgW7.shipSpawnZ ∧
      cfgW7.shipCount ≤ 1 ∧
      (260 : ℝ) = (cfgW7.shipSpawnZ - cfgW7.shipArriveZ) / 2 ∧
      ((2 : ℝ) ≤ ((⌈(2 : ℝ) / 1⌉.toNat : ℝ)) * 1 ∧
        ((⌈(2 : ℝ) / 1⌉.toNat : ℝ)) * 1 < 2 + 1) :=
  ⟨one_pos, two_pos, by norm_num [cfgW7], by norm_num [cfgW7], by norm_num [cfgW7],
    (deterministic_arrival cfgW7 ⟨0, 0, 0⟩ 2 1 260 0 1 5 0 0 one_pos two_pos
      (by norm_num [cfgW7]) (by norm_num [cfgW7]) (by norm_num [cfgW7])).1,
    (deterministic_arrival cfgW7 ⟨0, 0, 0⟩ 2 1 260 0 1 5 0 0 one_pos two_pos
      (by norm_num [cfgW7]) (by norm_num [cfgW7]) (by norm_num [cfgW7])).2.1⟩

theorem vec3R_ext {a b : Vec3R} (hx : a.x = b.x) (hy : a.y = b.y) (hz : a.z = b.z) :
    a = b := by
  cases a
  cases b
  dsimp only at hx hy hz
  rw [hx, hy, hz]

/-- Normalizing a nonzero XZ vector yields a planar unit vector. -/
theorem normalize3_unitXZ {a b : ℝ} (h : 0 < a * a + b * b) :
    unitXZ (normalize3 ⟨a, 0, b⟩) := by
  have hl : norm3 ⟨a, 0, b⟩ = Real.sqrt (a * a + b * b) := by
    unfold norm3
    norm_num
  have hlpos : 0 < Real.sqrt (a * a + b * b) := Real.sqrt_pos.mpr h
  unfold normalize3
  rw [hl, if_neg (ne_of_gt hlpos)]
  refine ⟨by simp, ?_⟩
  dsimp only
  rw [div_mul_div_comm, div_mul_div_comm, div_add_div_same,
    Real.mul_self_sqrt (le_of_lt h)]
  exact div_self (ne_of_gt h)

/-- Lagrange identity for two planar unit vectors: the squared dot plus
the squared 2D cross is one. -/
theorem dot_cross_sq {u w : Vec3R} (hu : unitXZ u) (hw : unitXZ w) :
    dot3 u w * dot3 u w + (u.x * w.z - u.z * w.x) * (u.x * w.z - u.z * w.x) = 1 := by
  unfold dot3
  rw [hu.1, hw.1]
  linear_combination (w.x * w.x + w.z * w.z) * hu.2 + hw.2

/-- The dot of a planar unit vector with its own Y rotation is the
cosine of the angle. -/
theorem dot3_rotY_self {v : Vec3R} (hy : v.y = 0)
    (hu : v.x * v.x + v.z * v.z = 1) (t : ℝ) :
    dot3 v (rotY t v) = Real.cos t := by
  unfold dot3 rotY
  dsimp only
  rw [hy]
  linear_combination Real.cos t * hu

theorem dot3_self_eq_one {v : Vec3R} (hy : v.y = 0)
    (hu : v.x * v.x + v.z * v.z = 1) : dot3 v v = 1 := by
  unfold dot3
  rw [hy]
  linear_combination hu

theorem steerDir_of_not_inRange {dt spotRange : ℝ} {spotC : Vec3R} {s : Ship}
    (h : ¬ shipIntersectsSpot s.pos s.radius spotC spotRange) :
    steerDir dt spotRange spotC s = s.dir := by
  unfold steerDir
  rw [if_neg h]

theorem steerDir_of_small_desired {dt spotRange : ℝ} {spotC : Vec3R} {s : Ship}
    (h : ¬((spotC.x - s.pos.x) * (spotC.x - s.pos.x) +
        (spotC.z - s.pos.z) * (spotC.z - s.pos.z) > 1 / 1000000)) :
    steerDir dt spotRange spotC s = s.dir := by
  unfold steerDir
  by_cases h1 : shipIntersectsSpot s.pos s.radius spotC spotRange
  · rw [if_pos h1]
    dsimp only
    rw [if_neg (by intro hc; apply h; linarith)]
  · rw [if_neg h1]

/-- In the engaged case the steering code reduces to: rotate the
heading by the signed clamped angle when above the deadband, else keep
it. The projected current heading is the heading itself and the clamp
on the dot product is the identity, both because the heading is a
planar unit vector. -/
theorem steerDir_engaged {dt spotRange : ℝ} {spotC : Vec3R} {s : Ship}
    (hy : s.dir.y = 0) (hunit : s.dir.x * s.dir.x + s.dir.z * s.dir.z = 1)
    (hin : shipIntersectsSpot s.pos s.radius spotC spotRange)
    (hlen : (spotC.x - s.pos.x) * (spotC.x - s.pos.x) +
      (spotC.z - s.pos.z) * (spotC.z - s.pos.z) > 1 / 1000000) :
    steerDir dt spotRange spotC s =
      (if Real.arccos (dot3 s.dir
            (normalize3 ⟨spotC.x - s.pos.x, 0, spotC.z - s.pos.z⟩)) > 1 / 10000 then
        rotY (-(Real.sign (s.dir.x *
              (normalize3 ⟨spotC.x - s.pos.x, 0, spotC.z - s.pos.z⟩).z -
            s.dir.z *
              (normalize3 ⟨spotC.x - s.pos.x, 0, spotC.z - s.pos.z⟩).x)) *
          min (s.turnRate * dt)
            (Real.arccos (dot3 s.dir
              (normalize3 ⟨spotC.x - s.pos.x, 0, spotC.z - s.pos.z⟩)))) s.dir
      else s.dir) := by
  have hdes : unitXZ (normalize3 ⟨spotC.x - s.pos.x, 0, spotC.z - s.pos.z⟩) :=
    normalize3_unitXZ (by nlinarith)
  have hlag := dot_cross_sq ⟨hy, hunit⟩ hdes
  have hclamp : max (-1) (min 1 (dot3 s.dir
      (normalize3 ⟨spotC.x - s.pos.x, 0, spotC.z - s.pos.z⟩))) =
      dot3 s.dir (normalize3 ⟨spotC.x - s.pos.x, 0, spotC.z - s.pos.z⟩) := by
    rw [min_eq_right (by nlinarith), max_eq_right (by nlinarith)]
  have hcur0 : (⟨s.dir.x, (0:ℝ), s.dir.z⟩ : Vec3R) = s.dir :=
    vec3R_ext rfl hy.symm rfl
  unfold steerDir
  rw [if_pos hin]
  dsimp only
  rw [if_pos (by linarith)]
  rw [if_pos (show s.dir.x * s.dir.x + 0 * 0 + s.dir.z * s.dir.z > 1 / 1000000 by
    nlinarith)]
  rw [hcur0, normalize3_of_norm_one (norm3_eq_one_of_unitXZ ⟨hy, hunit⟩), hclamp]
  by_cases hang : Real.arccos (dot3 s.dir
      (normalize3 ⟨spotC.x - s.pos.x, 0, spotC.z - s.pos.z⟩)) > 1 / 10000
  · rw [if_pos hang, if_pos hang,
      setY0_rotY_eq hy,
      normalize3_of_norm_one (norm3_eq_one_of_unitXZ (rotY_unitXZ ⟨hy, hunit⟩))]
  · rw [if_neg hang, if_neg hang]

/-- The signed clamped rotation moves an angle of at most m: the
absolute rotation step is bounded by the clamp. -/
theorem arccos_cos_rot_le (c ang m : ℝ) (hm : 0 ≤ m) (hang0 : 0 ≤ ang)
    (hangpi : ang ≤ Real.pi) :
    Real.arccos (Real.cos (-(Real.sign c) * min m ang)) ≤ m := by
  have habs : |(-(Real.sign c) * min m ang)| ≤ min m ang := by
    rw [abs_mul, abs_neg]
    have h1 : |Real.sign c| ≤ 1 := by
      rcases lt_trichotomy c 0 with h | h | h
      · rw [Real.sign_of_neg h]; norm_num
      · rw [h, Real.sign_zero]; norm_num
      · rw [Real.sign_of_pos h]; norm_num
    have h2 : |min m ang| = min m ang := abs_of_nonneg (le_min hm hang0)
    calc |Real.sign c| * |min m ang| ≤ 1 * |min m ang| :=
          mul_le_mul_of_nonneg_right h1 (abs_nonneg _)
      _ = min m ang := by rw [one_mul, h2]
  have hpi : |(-(Real.sign c) * min m ang)| ≤ Real.pi :=
    le_trans habs (le_trans (min_le_right _ _) hangpi)
  rw [← Real.cos_abs, Real.arccos_cos (abs_nonneg _) hpi]
  exact le_trans habs (min_le_left _ _)

/-- Rotating a planar unit heading by the signed angle between it and a
planar unit target lands exactly on the target, provided the 2D cross
product is nonzero (the vectors are neither aligned nor opposite). -/
theorem rotY_exact {u w : Vec3R} (hu : unitXZ u) (hw : unitXZ w)
    (hc : u.x * w.z - u.z * w.x ≠ 0) :
    rotY (-(Real.sign (u.x * w.z - u.z * w.x)) * Real.arccos (dot3 u w)) u = w := by
  have hlag := dot_cross_sq hu hw
  have hd_le1 : dot3 u w ≤ 1 := by nlinarith
  have hd_ge : -1 ≤ dot3 u w := by nlinarith
  have hcos : Real.cos (Real.arccos (dot3 u w)) = dot3 u w :=
    Real.cos_arccos hd_ge hd_le1
  have hsin : Real.sin (Real.arccos (dot3 u w)) = |u.x * w.z - u.z * w.x| := by
    rw [Real.sin_arccos,
      show 1 - (dot3 u w) ^ 2 = (u.x * w.z - u.z * w.x) ^ 2 by rw [sq, sq]; linarith]
    exact Real.sqrt_sq_eq_abs _
  have hstepcos : Real.cos (-(Real.sign (u.x * w.z - u.z * w.x)) *
      Real.arccos (dot3 u w)) = dot3 u w := by
    rcases lt_trichotomy (u.x * w.z - u.z * w.x) 0 with h | h | h
    · rw [Real.sign_of_neg h,
        show -(-1:ℝ) * Real.arccos (dot3 u w) = Real.arccos (dot3 u w) by ring, hcos]
    · exact absurd h hc
    · rw [Real.sign_of_pos h,
        show -(1:ℝ) * Real.arccos (dot3 u w) = -Real.arccos (dot3 u w) by ring,
        Real.cos_neg, hcos]
  have hstepsin : Real.sin (-(Real.sign (u.x * w.z - u.z * w.x)) *
      Real.arccos (dot3 u w)) = -(u.x * w.z - u.z * w.x) := by
    rcases lt_trichotomy (u.x * w.z - u.z * w.x) 0 with h | h | h
    · rw [Real.sign_of_neg h,
        show -(-1:ℝ) * Real.arccos (dot3 u w) = Real.arccos (dot3 u w) by ring,
        hsin, abs_of_neg h]
    · exact absurd h hc
    · rw [Real.sign_of_pos h,
        show -(1:ℝ) * Real.arccos (dot3 u w) = -Real.arccos (dot3 u w) by ring,
        Real.sin_neg, hsin, abs_of_pos h]
  refine vec3R_ext ?_ ?_ ?_
  · simp only [rotY]
    rw [hstepcos, hstepsin]
    unfold dot3
    rw [hu.1]
    linear_combination w.x * hu.2
  · simp only [rotY]
    rw [hu.1, hw.1]
  · simp only [rotY]
    rw [hstepcos, hstepsin]
    unfold dot3
    rw [hu.1]
    linear_combination w.z * hu.2

/-- C8 amended: for a ship with a planar unit heading and a nonnegative
turn budget, one steering pass changes the heading by an angle of at
most turnRate * dt; and whenever the steering actually engages (ship in
the control circle, nondegenerate desired vector) with an angle to the
desired heading strictly between the 1e-4 deadband and pi and within
the turn budget, the heading lands exactly on the desired heading. At
angle exactly pi the 2D cross product is zero, Math.sign returns 0 and
the heading does not move (see the counterexample), and below the
deadband the code deliberately leaves the heading unchanged. -/
theorem steer_clamp_and_exact (dt spotRange : ℝ) (spotC : Vec3R) (s : Ship)
    (hy : s.dir.y = 0) (hunit : s.dir.x * s.dir.x + s.dir.z * s.dir.z = 1)
    (hstep : 0 ≤ s.turnRate * dt) :
    Real.arccos (dot3 s.dir (steerDir dt spotRange spotC s)) ≤ s.turnRate * dt ∧
    (shipIntersectsSpot s.pos s.radius spotC spotRange →
      (spotC.x - s.pos.x) * (spotC.x - s.pos.x) +
          (spotC.z - s.pos.z) * (spotC.z - s.pos.z) > 1 / 1000000 →
      1 / 10000 < Real.arccos (dot3 s.dir
        (normalize3 ⟨spotC.x - s.pos.x, 0, spotC.z - s.pos.z⟩)) →
      Real.arccos (dot3 s.dir
        (normalize3 ⟨spotC.x - s.pos.x, 0, spotC.z - s.pos.z⟩)) < Real.pi →
      Real.arccos (dot3 s.dir
        (normalize3 ⟨spotC.x - s.pos.x, 0, spotC.z - s.pos.z⟩)) ≤ s.turnRate * dt →
      steerDir dt spotRange spotC s =
        normalize3 ⟨spotC.x - s.pos.x, 0, spotC.z - s.pos.z⟩) := by
  have hself : Real.arccos (dot3 s.dir s.dir) ≤ s.turnRate * dt := by
    rw [dot3_self_eq_one hy hunit, Real.arccos_one]
    exact hstep
  constructor
  · by_cases hin : shipIntersectsSpot s.pos s.radius spotC spotRange
    · by_cases hlen : (spotC.x - s.pos.x) * (spotC.x - s.pos.x) +
          (spotC.z - s.pos.z) * (spotC.z - s.pos.z) > 1 / 1000000
      · rw [steerDir_engaged hy hunit hin hlen]
        by_cases hang : Real.arccos (dot3 s.dir
            (normalize3 ⟨spotC.x - s.pos.x, 0, spotC.z - s.pos.z⟩)) > 1 / 10000
        · rw [if_pos hang, dot3_rotY_self hy hunit]
          exact arccos_cos_rot_le _ _ _ hstep (Real.arccos_nonneg _)
            (Real.arccos_le_pi _)
        · rw [if_neg hang]
          exact hself
      · rw [steerDir_of_small_desired hlen]
        exact hself
    · rw [steerDir_of_not_inRange hin]
      exact hself
  · intro hin hlen h3 h4 h5
    rw [steerDir_engaged hy hunit hin hlen, if_pos h3, min_eq_right h5]
    have hdes : unitXZ (normalize3 ⟨spotC.x - s.pos.x, 0, spotC.z - s.pos.z⟩) :=
      normalize3_unitXZ (by nlinarith)
    have hlag := dot_cross_sq ⟨hy, hunit⟩ hdes
    have hd_lt1 : dot3 s.dir
        (normalize3 ⟨spotC.x - s.pos.x, 0, spotC.z - s.pos.z⟩) < 1 :=
      Real.arccos_pos.mp (lt_trans (by norm_num) h3)
    have hd_ge : -1 ≤ dot3 s.dir
        (normalize3 ⟨spotC.x - s.pos.x, 0, spotC.z - s.pos.z⟩) := by nlinarith
    have hd_gt : -1 < dot3 s.dir
        (normalize3 ⟨spotC.x - s.pos.x, 0, spotC.z - s.pos.z⟩) := by
      rcases eq_or_lt_of_le hd_ge with he | h
      · exfalso
        rw [← he, Real.arccos_neg_one] at h4
        exact lt_irrefl _ h4
      · exact h
    have hcne : s.dir.x * (normalize3 ⟨spotC.x - s.pos.x, 0, spotC.z - s.pos.z⟩).z -
        s.dir.z * (normalize3 ⟨spotC.x - s.pos.x, 0, spotC.z - s.pos.z⟩).x ≠ 0 := by
      intro h0
      rw [h0] at hlag
      nlinarith
    exact rotY_exact ⟨hy, hunit⟩ hdes hcne

theorem rotY_zero (v : Vec3R) : rotY 0 v = v := by
  apply vec3R_ext <;> simp [rotY]

/-- C8 counterexample: the ship is inside the control circle and the
angle to the desired heading, pi, is within the turn budget
turnRate * dt = 4, yet the steering leaves the heading unchanged and
strictly off the desired heading: the 2D cross product is 0, so
Math.sign yields a zero step. -/
theorem steer_antipodal_stall :
    shipIntersectsSpot shipC8.pos shipC8.radius spotC8 90 ∧
    Real.arccos (dot3 shipC8.dir
      (normalize3 ⟨spotC8.x - shipC8.pos.x, 0, spotC8.z - shipC8.pos.z⟩)) ≤
      shipC8.turnRate * 1 ∧
    steerDir 1 90 spotC8 shipC8 = shipC8.dir ∧
    shipC8.dir ≠ normalize3 ⟨spotC8.x - shipC8.pos.x, 0, spotC8.z - shipC8.pos.z⟩ := by
  have hvec : (⟨spotC8.x - shipC8.pos.x, (0:ℝ), spotC8.z - shipC8.pos.z⟩ : Vec3R) =
      ⟨-10, 0, 0⟩ := by
    apply vec3R_ext <;> norm_num [spotC8, shipC8]
  have hnorm : norm3 ⟨(-10 : ℝ), 0, 0⟩ = 10 := by
    unfold norm3
    dsimp only
    rw [show (-10 : ℝ) * -10 + 0 * 0 + 0 * 0 = 10 ^ 2 by norm_num]
    exact Real.sqrt_sq (by norm_num)
  have hdes : normalize3 ⟨(-10 : ℝ), 0, 0⟩ = ⟨-1, 0, 0⟩ := by
    unfold normalize3
    rw [hnorm]
    rw [if_neg (by norm_num)]
    apply vec3R_ext <;> norm_num
  have hdot : dot3 shipC8.dir (⟨-1, 0, 0⟩ : Vec3R) = -1 := by
    norm_num [dot3, shipC8]
  have hin : shipIntersectsSpot shipC8.pos shipC8.radius spotC8 90 := by
    norm_num [shipIntersectsSpot, shipC8, spotC8]
  have hlen : (spotC8.x - shipC8.pos.x) * (spotC8.x - shipC8.pos.x) +
      (spotC8.z - shipC8.pos.z) * (spotC8.z - shipC8.pos.z) > 1 / 1000000 := by
    norm_num [spotC8, shipC8]
  have hang : Real.arccos (dot3 shipC8.dir
      (normalize3 ⟨spotC8.x - shipC8.pos.x, 0, spotC8.z - shipC8.pos.z⟩)) =
      Real.pi := by
    rw [hvec, hdes, hdot, Real.arccos_neg_one]
  refine ⟨hin, ?_, ?_, ?_⟩
  · rw [hang]
    have := Real.pi_le_four
    norm_num [shipC8]
    linarith
  · rw [steerDir_engaged (by rfl) (by norm_num [shipC8]) hin hlen]
    rw [if_pos (by rw [hang]; linarith [Real.pi_gt_three])]
    rw [hvec, hdes]
    rw [show shipC8.dir.x * (⟨-1, 0, 0⟩ : Vec3R).z -
        shipC8.dir.z * (⟨-1, 0, 0⟩ : Vec3R).x = 0 by norm_num [shipC8]]
    rw [Real.sign_zero]
    rw [show -(0:ℝ) * min (shipC8.turnRate * 1)
        (Real.arccos (dot3 shipC8.dir (⟨-1, 0, 0⟩ : Vec3R))) = 0 by ring]
    exact rotY_zero shipC8.dir
  · rw [hvec, hdes]
    intro h
    have := congrArg Vec3R.x h
    norm_num [shipC8] at this

/-- Concrete instance of the amended C8: the angular change of one
steering pass of shipW8 is bounded by its turn budget. -/
theorem steer_clamp_and_exact_witness :
    shipW8.dir.y = 0 ∧ shipW8.dir.x * shipW8.dir.x + shipW8.dir.z * shipW8.dir.z = 1 ∧
    0 ≤ shipW8.turnRate * 1 ∧
    Real.arccos (dot3 shipW8.dir (steerDir 1 90 ⟨0, 0, 0⟩ shipW8)) ≤
      shipW8.turnRate * 1 :=
  ⟨rfl, by norm_num [shipW8], by norm_num [shipW8],
    (steer_clamp_and_exact 1 90 ⟨0, 0, 0⟩ shipW8 rfl (by norm_num [shipW8])
      (by norm_num [shipW8])).1⟩

end LighthouseKeeper
